import Mathlib

/-!
Verification of the jinja2html incremental build-and-notify pipeline.

This file is a shallow embedding of the current-generation modules of the
jinja2html repository (`build_context.py`, `utils.py`, `website_manager.py`,
`web_ui.py`).  Absolute filesystem paths are modelled as lists of path
components below the root; the filesystem as the finite set of regular files
(with their text) and directories that exist at the instant a function runs.
External collaborators (the jinja render engine, BeautifulSoup's body lookup
and script injection, `json.loads`, `urlparse`) are taken as function
parameters, exactly as the spec treats them (black boxes at their interface).
Python exceptions are modelled with `Except`.
-/

namespace J2H

/-- An absolute, resolved filesystem path: its component list below the root
(`/i/templates/base.html` is `["i", "templates", "base.html"]`, the root is `[]`). -/
abbrev FPath := List String

/-- `d in f.parents` for resolved `pathlib` paths: `d` is a proper ancestor of `f`,
i.e. a proper component-list front of it. -/
def isParentOf (d f : FPath) : Bool :=
  d.isPrefixOf f && d ≠ f

/-- The filesystem at one instant: the regular files that exist (with their text
content) and the directories that exist. -/
structure FS where
  files : List (FPath × String)
  dirs : List FPath
deriving DecidableEq

/-- `Path.is_file()`. -/
def FS.isFile (fs : FS) (p : FPath) : Bool :=
  fs.files.any fun e => e.1 = p

/-- `Path.is_dir()`. -/
def FS.isDir (fs : FS) (p : FPath) : Bool :=
  fs.dirs.contains p

/-- `Path.read_text()` (defaults to the empty string off the file set; all reads
in the source are guarded by `is_file`). -/
def FS.readText (fs : FS) (p : FPath) : String :=
  ((fs.files.find? fun e => e.1 = p).map Prod.snd).getD ""

/-- `Path.name`: the final path component (empty for the root). -/
def pathName (p : FPath) : String :=
  p.getLastD ""

/-- Index of the last occurrence of `c` in `cs` (`str.rfind`), if any. -/
def rfindChar (c : Char) (cs : List Char) : Option Nat :=
  ((List.range cs.length).filter fun i => cs.get? i = some c).getLast?

/-- `PurePath.suffix`: with `i = name.rfind \x27.\x27`, the slice `name[i:]` when
`0 < i < len(name) - 1`, else the empty string. -/
def pathSuffix (name : String) : String :=
  let cs := name.toList
  match rfindChar '.' cs with
  | some i => if 0 < i ∧ i < cs.length - 1 then String.mk (cs.drop i) else ""
  | none => ""

/-- `str.lower()` on ASCII names. -/
def lowerStr (s : String) : String :=
  String.mk (s.toList.map Char.toLower)

/-- `utils._is_ext`: whether the file's suffix, lower-cased, is one of `ext`. -/
def is_ext (f : FPath) (ext : List String) : Bool :=
  ext.contains (lowerStr (pathSuffix (pathName f)))

/-- `utils.is_css_js`. -/
def is_css_js (f : FPath) : Bool :=
  is_ext f [".css", ".js"]

/-- `utils.is_html`. -/
def is_html (f : FPath) : Bool :=
  is_ext f [".html", ".htm", ".jinja"]

/-- `watchfiles.Change` (added = 1, modified = 2, deleted = 3). -/
inductive Change
  | added
  | modified
  | deleted
deriving DecidableEq

/-- `build_context.Context` after `__init__` has resolved everything: the watched
input root, the output root, the template directory, the ignored directories
(`ignore_list` resolved, plus the output directory), the `config.json` path and
the dev-mode flag. -/
structure Context where
  input_dir : FPath
  output_dir : FPath
  template_dir : FPath
  ignored_dirs : List FPath
  config_json : FPath
  dev_mode : Bool
deriving DecidableEq

/-- `Context.__init__` on already-absolute arguments: `template_dir` is the named
folder under `input_dir`, `ignored_dirs` is the ignore list plus `output_dir`,
and `config_json` is `input_dir/config.json`. -/
def Context.make (input_dir output_dir : FPath) (template_dir : String)
    (ignore_list : List FPath) (dev_mode : Bool) : Context where
  input_dir := input_dir
  output_dir := output_dir
  template_dir := input_dir ++ [template_dir]
  ignored_dirs := ignore_list ++ [output_dir]
  config_json := input_dir ++ ["config.json"]
  dev_mode := dev_mode

/-- `Context.is_template`: `(f.is_file() or change == Change.deleted) and
self.template_dir in f.parents and is_html(f)`.  The `change` argument defaults
to `None` in the source, modelled by `Option Change`. -/
def Context.is_template (ctx : Context) (fs : FS) (f : FPath) (change : Option Change) : Bool :=
  (fs.isFile f || change = some Change.deleted) && isParentOf ctx.template_dir f && is_html f

/-- `Context.is_config_json`: path equality with the resolved `config.json`. -/
def Context.is_config_json (ctx : Context) (f : FPath) : Bool :=
  f = ctx.config_json

/-- Boolean semantics of `re.match` for
`Context._FILE_PATTERN = re.compile(r"[^.].*?\.(html|css|js)$", re.IGNORECASE)`
applied to a file name: the first character is consumed by the `[^.]` class (so
the name must not start with a dot and must be strictly longer than the matched
tail), the lazy `.*?` consumes the middle, and the anchored tail is a literal
dot followed by one of the three alternatives, letters matched in either case. -/
def filePatternMatch (name : String) : Bool :=
  let cs := name.toList
  cs.headD '.' ≠ '.' &&
    [".html", ".css", ".js"].any fun ext =>
      ext.toList.isSuffixOf (cs.map Char.toLower) && ext.length < cs.length

/-- `Context.is_content_file`: `p.is_file() and Context._FILE_PATTERN.match(p.name)
and self.template_dir not in p.parents`. -/
def Context.is_content_file (ctx : Context) (fs : FS) (p : FPath) : Bool :=
  fs.isFile p && filePatternMatch (pathName p) && !isParentOf ctx.template_dir p

/-- `watchfiles.DefaultFilter.ignore_dirs`. -/
def defaultFilterIgnoreDirs : List String :=
  ["__pycache__", ".git", ".hg", ".svn", ".tox", ".venv", "site-packages", ".idea",
    "node_modules"]

/-- `Context.is_content_dir`: an existing directory that is not the template
directory nor under it, whose name is not a reserved watchfiles directory name,
and that is not in the ignored set. -/
def Context.is_content_dir (ctx : Context) (fs : FS) (p : FPath) : Bool :=
  fs.isDir p && p ≠ ctx.template_dir && !isParentOf ctx.template_dir p &&
    !defaultFilterIgnoreDirs.contains (pathName p) && !ctx.ignored_dirs.contains p

/-- `Context.stub_of`: `f.relative_to(self.input_dir)`.  `relative_to` succeeds
exactly when `input_dir` is a component-list front of `f` and then returns the
remaining components; otherwise it raises `ValueError`, modelled as `Except`. -/
def Context.stub_of (ctx : Context) (f : FPath) : Except Unit FPath :=
  if ctx.input_dir.isPrefixOf f then Except.ok (f.drop ctx.input_dir.length)
  else Except.error ()

/-- `JinjaFilter.__call__`: a change to a path is reported exactly when the path
is a content file, a content directory, the config file, or a template (the
change kind being passed through to the template check only). -/
def jinjaFilter (ctx : Context) (fs : FS) (change : Change) (p : FPath) : Bool :=
  ctx.is_content_file fs p || ctx.is_content_dir fs p || ctx.is_config_json p ||
    ctx.is_template fs p (some change)

/-- The entries `os.scandir` yields for a directory `d`: the files and
directories whose path is `d` plus one further component. -/
def childEntries (fs : FS) (d : FPath) : List FPath :=
  (fs.files.map Prod.fst ++ fs.dirs).filter fun e =>
    e.length = d.length + 1 && d.isPrefixOf e

/-- The deque loop of `WebsiteManager.find_acceptable_files`: pop a directory,
collect its content-file entries, enqueue its content-directory entries.  The
fuel argument bounds the number of pops; on a real (finite, tree-shaped)
filesystem each directory is enqueued at most once from its unique parent, so
`fs.dirs.length + 1` pops always suffice. -/
def fafLoop (ctx : Context) (fs : FS) : Nat → List FPath → List FPath → List FPath
  | 0, _, files => files
  | _ + 1, [], files => files
  | n + 1, d :: rest, files =>
    let entries := childEntries fs d
    let files' := files ++ entries.filter fun e =>
      ctx.is_content_file fs e && !files.contains e
    let dirs' := entries.filter fun e =>
      !ctx.is_content_file fs e && ctx.is_content_dir fs e
    fafLoop ctx fs n (rest ++ dirs') files'

/-- `WebsiteManager.find_acceptable_files`: breadth-first traversal from
`input_dir` collecting every content file, skipping non-content directories. -/
def find_acceptable_files (ctx : Context) (fs : FS) : List FPath :=
  fafLoop ctx fs (fs.dirs.length + 1) [ctx.input_dir] []

/-- The external collaborators used by `WebsiteManager.build_files` for one
render-context type `Conf` (the parsed `config.json` object):
`render stub conf` is `t_env.get_template(stub).render(conf)` (failure is any
exception raised there); `hasBody markup` is whether
`BeautifulSoup(markup, "lxml").find("body")` is not `None`; `withInjected
markup` is the re-serialized soup after the two livereload script tags are
appended to the body tag. -/
structure Renderer (Conf : Type) where
  render : String → Conf → Except Unit String
  hasBody : String → Bool
  withInjected : String → String

/-- `str` of a relative `Path`: components joined with a slash. -/
def stubString (s : FPath) : String :=
  String.intercalate "/" s

/-- What `build_files` did for one input file. -/
inductive FileResult
  | copied (src : FPath) (out : FPath)
  | written (out : FPath) (text : String)
  | warnedMalformed (f : FPath)
  | errorLogged (f : FPath)
  | ignored (f : FPath)
deriving DecidableEq

/-- An exception escaping `build_files`: `ValueError` from `stub_of` on a path
outside the input root, or `json.loads` failing on the config file text. -/
inductive BuildErr
  | valueError (f : FPath)
  | jsonError
deriving DecidableEq

/-- The body of the `for f in files` loop of `WebsiteManager.build_files`:
compute the output path from the stub (`ValueError` propagates), copy css/js,
render html through the engine with the given context — catching any render
exception as an error log, and, in dev mode, catching the `AttributeError`
from appending to a missing body tag as a warning — and ignore anything else. -/
def buildOne {Conf : Type} (ctx : Context) (R : Renderer Conf) (conf : Conf) (f : FPath) :
    Except BuildErr FileResult :=
  match ctx.stub_of f with
  | Except.error _ => Except.error (BuildErr.valueError f)
  | Except.ok stub =>
    let output_path := ctx.output_dir ++ stub
    if is_css_js f then Except.ok (FileResult.copied f output_path)
    else if is_html f then
      match R.render (stubString stub) conf with
      | Except.error _ => Except.ok (FileResult.errorLogged f)
      | Except.ok output =>
        if ctx.dev_mode then
          if R.hasBody output then
            Except.ok (FileResult.written output_path (R.withInjected output))
          else Except.ok (FileResult.warnedMalformed f)
        else Except.ok (FileResult.written output_path output)
    else Except.ok (FileResult.ignored f)

/-- The `conf` computation of `build_files`:
`json.loads(self.context.config_json.read_text()) if
self.context.config_json.is_file() else \x7b\x7d`, with `json.loads` modelled
by the external `parseJson` (an exception there escapes `build_files`). -/
def loadConf {Conf : Type} (ctx : Context) (fs : FS) (parseJson : String → Except Unit Conf)
    (emptyConf : Conf) : Except BuildErr Conf :=
  if fs.isFile ctx.config_json then
    match parseJson (fs.readText ctx.config_json) with
    | Except.ok c => Except.ok c
    | Except.error _ => Except.error BuildErr.jsonError
  else Except.ok emptyConf

/-- `WebsiteManager.build_files`: with `auto_find` the file set is rediscovered
and the `files` argument ignored; otherwise an empty argument returns at once.
Then the render context is loaded and each file processed in turn; the first
uncaught exception (only `ValueError` from `stub_of`, or `json.loads` before
the loop) aborts the call. -/
def build_files {Conf : Type} (ctx : Context) (fs : FS) (R : Renderer Conf)
    (parseJson : String → Except Unit Conf) (emptyConf : Conf)
    (files : List FPath) (auto_find : Bool) : Except BuildErr (List FileResult) :=
  let files := if auto_find then find_acceptable_files ctx fs else files
  if !auto_find && files.isEmpty then Except.ok []
  else
    match loadConf ctx fs parseJson emptyConf with
    | Except.error e => Except.error e
    | Except.ok conf => files.mapM (buildOne ctx R conf)

/-- The loop state of the `for change, p in changes` loop in
`web_ui.changed_files_handler`: the set `l` (insertion order kept), the two
flags, and the output paths unlinked so far by the deletion branch. -/
structure LoopState where
  l : List FPath
  build_all : Bool
  notify_all : Bool
  unlinked : List FPath
deriving DecidableEq

/-- One batch's event loop in `changed_files_handler`.  A template (checked with
`is_template(p)`, i.e. with no change kind) or config event replaces `l` with
the full rediscovery, sets `build_all` and breaks; an added/modified event adds
the path to `l` and raises `notify_all` for a css/js extension; any other event
(deleted) unlinks the corresponding output file, `missing_ok=True` — a
`ValueError` from `stub_of` there would escape the handler, modelled as
`Except.error`. -/
def stepEvents (ctx : Context) (fs : FS) :
    List (Change × FPath) → LoopState → Except Unit LoopState
  | [], st => Except.ok st
  | (change, p) :: rest, st =>
    if ctx.is_template fs p none || ctx.is_config_json p then
      Except.ok { st with l := find_acceptable_files ctx fs, build_all := true }
    else if change = Change.added || change = Change.modified then
      stepEvents ctx fs rest
        { st with
          l := if st.l.contains p then st.l else st.l ++ [p]
          notify_all := st.notify_all || is_css_js p }
    else
      match ctx.stub_of p with
      | Except.ok s =>
        stepEvents ctx fs rest { st with unlinked := st.unlinked ++ [ctx.output_dir ++ s] }
      | Except.error _ => Except.error ()

/-- What one iteration of the watcher loop decides for a batch: the set handed
to `build_files`, the two flags, the unlinked output paths, and the set the
notification loop runs over (`l` re-widened to the full rediscovery when
`notify_all and not build_all`). -/
structure BatchOutcome where
  buildSet : List FPath
  buildAll : Bool
  notifyAll : Bool
  unlinked : List FPath
  notifySet : List FPath
deriving DecidableEq

/-- One iteration of `changed_files_handler` for one change batch, up to and
including choosing the notify set.  `wm.build_files(l)` is invoked on
`buildSet`, and the reload loop runs over `notifySet`. -/
def handleBatch (ctx : Context) (fs : FS) (batch : List (Change × FPath)) :
    Except Unit BatchOutcome :=
  (stepEvents ctx fs batch ⟨[], false, false, []⟩).map fun st =>
    { buildSet := st.l
      buildAll := st.build_all
      notifyAll := st.notify_all
      unlinked := st.unlinked
      notifySet :=
        if st.notify_all && !st.build_all then find_acceptable_files ctx fs else st.l }

/-- The livereload reload message for one stub, field for field:
command "reload", path the stub, liveCSS false. -/
structure Message where
  command : String
  path : String
  liveCSS : Bool
deriving DecidableEq

/-- The message `changed_files_handler` builds for a stub. -/
def reloadMessage (stub : String) : Message :=
  ⟨"reload", stub, false⟩

/-- The notification fan-out of `changed_files_handler` for one path `p` of the
notify set, given the current `_SESSIONS` table (stub key to registered session
handles, a key off the table holding no sessions): every session under the stub
of `p` receives the reload message, and when `p.name == "index.html"` every
session under the empty root key receives it as well. -/
def notifyFile (sessions : String → List Nat) (ctx : Context) (p : FPath) :
    Except Unit (List (Nat × Message)) :=
  (ctx.stub_of p).map fun s =>
    let stub := stubString s
    let message := reloadMessage stub
    ((sessions stub).map fun t => (t, message)) ++
      (if pathName p = "index.html" then (sessions "").map fun t => (t, message) else [])

/-- The state of `web_ui.LiveReloadServer`: `_ALL_SOCKETS` (an insertion-ordered
dict from socket handle to `None` until the info message, then the declared url
path) and `_SESSIONS` (url path to the set of registered handles). -/
structure Hub where
  allSockets : List (Nat × Option String)
  sessions : List (String × List Nat)
deriving DecidableEq

/-- The session set `_SESSIONS` holds under one key (empty off the table). -/
def Hub.sessionsOf (h : Hub) (k : String) : List Nat :=
  ((h.sessions.find? fun e => e.1 = k).map Prod.snd).getD []

/-- `_SESSIONS[k].add(w)` on the defaultdict-of-sets. -/
def addSession (ss : List (String × List Nat)) (k : String) (w : Nat) :
    List (String × List Nat) :=
  if ss.any fun e => e.1 = k then
    ss.map fun e => if e.1 = k then (k, if e.2.contains w then e.2 else e.2 ++ [w]) else e
  else ss ++ [(k, [w])]

/-- `LiveReloadServer.on_receive` for one already-parsed client message with a
`command` field and optional `url` field.  A socket not yet in `_ALL_SOCKETS`
is in handshake: a hello is acknowledged and records `None`; anything else is
only logged.  A known socket sending info with a truthy url is registered under
`urlparse(url).path.lstrip("/")` — that external computation is the `pathOf`
parameter; any other message is only logged. -/
def on_receive (pathOf : String → String) (h : Hub) (w : Nat) (command : String)
    (url : Option String) : Hub :=
  if (h.allSockets.find? fun e => e.1 = w).isNone then
    if command = "hello" then { h with allSockets := h.allSockets ++ [(w, none)] } else h
  else
    match url with
    | some u =>
      if command = "info" && u ≠ "" then
        let up := pathOf u
        { h with
          sessions := addSession h.sessions up w
          allSockets := h.allSockets.map fun e => if e.1 = w then (w, some up) else e }
      else h
    | none => h

/-- `LiveReloadServer.on_disconnect`: `_ALL_SOCKETS.pop(websocket, None)` always
drops the handshake entry when present, but the removal from `_SESSIONS` is
guarded by Python truthiness of the popped value, so it is skipped both for
`None` (handshake never completed) and for the empty-string url path. -/
def on_disconnect (h : Hub) (w : Nat) : Hub :=
  match (h.allSockets.find? fun e => e.1 = w).map Prod.snd with
  | none => h
  | some v =>
    let h' : Hub := { h with allSockets := h.allSockets.filter fun e => e.1 ≠ w }
    match v with
    | some up =>
      if up ≠ "" then
        { h' with
          sessions := h'.sessions.map fun e =>
            if e.1 = up then (up, e.2.filter fun t => t ≠ w) else e }
      else h'
    | none => h'

/-- Decidable equality for `Except`, used to evaluate the model on concrete
inputs. -/
instance {e a : Type} [DecidableEq e] [DecidableEq a] : DecidableEq (Except e a) := fun x y =>
  match x, y with
  | Except.ok u, Except.ok v =>
    if h : u = v then isTrue (h ▸ rfl) else isFalse fun hc => h (Except.ok.inj hc)
  | Except.error u, Except.error v =>
    if h : u = v then isTrue (h ▸ rfl) else isFalse fun hc => h (Except.error.inj hc)
  | Except.ok _, Except.error _ => isFalse fun hc => Except.noConfusion hc
  | Except.error _, Except.ok _ => isFalse fun hc => Except.noConfusion hc

/-! ### Concrete objects used by witnesses and counterexamples

`exFS`/`exCtx` mirror the sample project of the repository's test suite:
six content files, a template, a config file and a `sub` directory under the
input root `/i`, with output root `/i/out`. -/

def exCtx : Context := Context.make ["i"] ["i", "out"] "templates" [] false

def exCtxDev : Context := Context.make ["i"] ["i", "out"] "templates" [] true

def exFS : FS where
  files := [(["i", "index.html"], ""), (["i", "content1.html"], ""),
    (["i", "content2.html"], ""), (["i", "sub", "index.html"], ""),
    (["i", "shared.css"], ""), (["i", "shared.js"], ""),
    (["i", "templates", "base.html"], ""), (["i", "config.json"], "cfg")]
  dirs := [["i"], ["i", "sub"], ["i", "templates"], ["i", "out"]]

/-- A concrete render engine over `Conf := Nat`: rendering fails exactly on the
stub `bad.html`, and the rendered markup of `frag.html` has no body tag. -/
def exRenderer : Renderer Nat where
  render := fun s _ => if s = "bad.html" then Except.error () else Except.ok (s ++ "!")
  hasBody := fun m => m ≠ "frag.html!"
  withInjected := fun m => m ++ "+inj"

/-- A concrete `json.loads` stand-in over `Conf := Nat`: only the text `cfg`
parses. -/
def exParse : String → Except Unit Nat :=
  fun s => if s = "cfg" then Except.ok 5 else Except.error ()

/-- The session table used by the C7 witness: sessions 1 and 2 watch
`foo.html`, session 9 watches the root. -/
def exSessions : String → List Nat :=
  fun k => if k = "foo.html" then [1, 2] else if k = "" then [9] else []

/-- A name ends, case-insensitively, with the extension `ext` (the spec's
"ends in ..." phrasing, used to restate the content-file rule). -/
def nameEndsWith (name ext : String) : Bool :=
  ext.toList.isSuffixOf (name.toList.map Char.toLower)

/-- A non-empty name that is not dot-prefixed (the spec's "non-dot-prefixed
name" phrasing). -/
def nonDotName (name : String) : Bool :=
  name.toList.headD '.' ≠ '.'

/-- The content-file rule exactly as claim C3 states it: an existing regular
file whose non-dot-prefixed name ends in `.html`, `.htm`, `.css` or `.js`
(case-insensitive), not under the template directory and not inside an ignored
directory. -/
def is_content_file_claimed (ctx : Context) (fs : FS) (p : FPath) : Bool :=
  fs.isFile p && nonDotName (pathName p) &&
    ([".html", ".htm", ".css", ".js"].any fun e => nameEndsWith (pathName p) e) &&
    !isParentOf ctx.template_dir p &&
    !(ctx.ignored_dirs.any fun d => isParentOf d p)

/-- Filesystem for the C3 counterexample: an `.htm` file at the top level and
an `.html` file inside the ignored output directory. -/
def exFS3 : FS where
  files := [(["i", "a.htm"], ""), (["i", "out", "x.html"], "")]
  dirs := [["i"], ["i", "out"]]

/-- Filesystem for the C5 counterexample: `config.json` exists but its text
does not parse as JSON. -/
def exFSBadJson : FS where
  files := [(["i", "content1.html"], ""), (["i", "config.json"], "OOPS")]
  dirs := [["i"]]

/-- Filesystem before the C2 deletion: `gone.html` exists and is a content
file. -/
def exFSBefore : FS where
  files := [(["i", "gone.html"], "x")]
  dirs := [["i"]]

/-- Filesystem after the C2 deletion of `gone.html`. -/
def exFSAfter : FS where
  files := []
  dirs := [["i"]]

/-- Filesystem for the C1 failing input: one content file, and the template
`templates/base.html` already deleted (absent). -/
def exFS1 : FS where
  files := [(["i", "a.html"], "")]
  dirs := [["i"]]

/-! ### Helper lemmas -/

theorem stub_of_ok_iff (ctx : Context) (f : FPath) :
    (∃ s, ctx.stub_of f = Except.ok s ∧ ctx.input_dir ++ s = f) ↔
      ctx.input_dir.isPrefixOf f = true := by
  unfold Context.stub_of
  by_cases h : ctx.input_dir.isPrefixOf f
  · simp only [if_pos h, h, iff_true]
    refine ⟨f.drop ctx.input_dir.length, rfl, ?_⟩
    have hp : ctx.input_dir <+: f := by rwa [ List.isPrefixOf_iff_prefix] at h
    obtain ⟨t, ht⟩ := hp
    rw [← ht, List.drop_left]
  · simp [h]

theorem stub_of_error_iff (ctx : Context) (f : FPath) :
    ctx.stub_of f = Except.error () ↔ ctx.input_dir.isPrefixOf f = false := by
  unfold Context.stub_of
  by_cases h : ctx.input_dir.isPrefixOf f <;> simp [h]

theorem stub_of_ok_append (ctx : Context) (p s : FPath)
    (hs : ctx.stub_of p = Except.ok s) : ctx.input_dir ++ s = p := by
  unfold Context.stub_of at hs
  by_cases h : ctx.input_dir.isPrefixOf p
  · rw [if_pos h] at hs
    cases hs
    have hp : ctx.input_dir <+: p := by rwa [ List.isPrefixOf_iff_prefix] at h
    obtain ⟨t, ht⟩ := hp
    rw [← ht, List.drop_left]
  · rw [if_neg h] at hs
    cases hs

theorem getLastD_append_right (l s : List String) (hne : s ≠ []) :
    (l ++ s).getLastD "" = s.getLastD "" := by
  rcases List.eq_nil_or_concat s with h | ⟨s', a, rfl⟩
  · exact absurd h hne
  · rw [List.concat_eq_append, ← List.append_assoc, List.getLastD_concat,
      List.getLastD_concat]

theorem buildOne_ok {Conf : Type} (ctx : Context) (R : Renderer Conf) (conf : Conf)
    (f : FPath) (h : ctx.input_dir.isPrefixOf f = true) :
    ∃ r, buildOne ctx R conf f = Except.ok r := by
  unfold buildOne Context.stub_of
  simp only [if_pos h]
  by_cases h1 : is_css_js f
  · simp [h1]
  · by_cases h2 : is_html f
    · cases hr : R.render (stubString (f.drop ctx.input_dir.length)) conf with
      | error e => simp [h1, h2, hr]
      | ok out =>
        by_cases h3 : ctx.dev_mode
        · by_cases h4 : R.hasBody out
          · simp [h1, h2, hr, h3, h4]
          · simp [h1, h2, hr, h3, h4]
        · simp [h1, h2, hr, h3]
    · simp [h1, h2]

theorem buildOne_error_iff {Conf : Type} (ctx : Context) (R : Renderer Conf) (conf : Conf)
    (f : FPath) (h : ctx.input_dir.isPrefixOf f = false) :
    buildOne ctx R conf f = Except.error (BuildErr.valueError f) := by
  unfold buildOne Context.stub_of
  simp [h]

theorem mapM_buildOne_error {Conf : Type} (ctx : Context) (R : Renderer Conf) (conf : Conf) :
    ∀ files : List FPath, (∃ f ∈ files, ctx.input_dir.isPrefixOf f = false) →
      ∃ g, ctx.input_dir.isPrefixOf g = false ∧
        files.mapM (buildOne ctx R conf) = Except.error (BuildErr.valueError g) := by
  intro files
  induction files with
  | nil => rintro ⟨f, hf, _⟩; exact absurd hf (List.not_mem_nil f)
  | cons a l ih =>
    rintro ⟨f, hf, hbad⟩
    by_cases ha : ctx.input_dir.isPrefixOf a
    · have hfl : f ∈ l := by
        rcases List.mem_cons.mp hf with h | h
        · exact absurd (h ▸ ha) (by simp [hbad])
        · exact h
      obtain ⟨g, hg, hmap⟩ := ih ⟨f, hfl, hbad⟩
      obtain ⟨r, hr⟩ := buildOne_ok ctx R conf a ha
      exact ⟨g, hg, by rw [List.mapM_cons, hr, hmap]; rfl⟩
    · rw [Bool.not_eq_true] at ha
      exact ⟨a, ha, by rw [List.mapM_cons, buildOne_error_iff ctx R conf a ha]; rfl⟩

theorem toLower_eq_dot {c : Char} (h : c.toLower = '.') : c = '.' := by
  unfold Char.toLower at h
  simp only [] at h
  by_cases hg : c.toNat ≥ 65 ∧ c.toNat ≤ 90
  · rw [if_pos hg] at h
    exfalso
    obtain ⟨hlo, hhi⟩ := hg
    generalize hn : c.toNat = n at h hlo hhi
    interval_cases n <;> exact absurd h (by decide)
  · rwa [if_neg hg] at h

theorem and_eq_self_of_imp {a b : Bool} (h : a = true → b = true) : (a && b) = a := by
  cases a
  · rfl
  · rw [h rfl]; rfl

theorem suffix_lt_of_nonDot (cs : List Char) (ext : String)
    (hds : ext.data.headD ' ' = '.') (hd : ¬cs.headD '.' = '.')
    (hs : ext.data.isSuffixOf (cs.map Char.toLower) = true) : ext.length < cs.length := by
  have hsuf : ext.data <:+ cs.map Char.toLower := by
    rwa [ List.isSuffixOf_iff_suffix] at hs
  have hle : ext.data.length ≤ cs.length := by
    have := hsuf.length_le
    simpa using this
  have hlen : ext.length = ext.data.length := rfl
  rcases Nat.lt_or_ge ext.data.length cs.length with hlt | hge
  · omega
  · exfalso
    have heq : ext.data = cs.map Char.toLower := hsuf.eq_of_length (by simp; omega)
    cases cs with
    | nil =>
      rw [List.map_nil] at heq
      rw [heq] at hds
      simp at hds
    | cons c rest =>
      rw [List.map_cons] at heq
      rw [heq] at hds
      simp only [List.headD_cons] at hds hd
      exact hd (toLower_eq_dot hds)

theorem filePattern_spec (name : String) :
    filePatternMatch name =
      (nonDotName name && [".html", ".css", ".js"].any fun e => nameEndsWith name e) := by
  unfold filePatternMatch nonDotName nameEndsWith
  obtain ⟨cs⟩ := name
  cases cs with
  | nil => decide
  | cons c rest =>
    by_cases hc : c = '.'
    · subst hc
      simp
    · have hd : ¬(c :: rest).headD '.' = '.' := by simpa using hc
      simp only [String.toList, List.headD_cons, List.any_cons, List.any_nil, Bool.or_false]
      congr 1
      rw [and_eq_self_of_imp fun hs =>
          decide_eq_true (suffix_lt_of_nonDot (c :: rest) ".html" (by decide) hd hs),
        and_eq_self_of_imp fun hs =>
          decide_eq_true (suffix_lt_of_nonDot (c :: rest) ".css" (by decide) hd hs),
        and_eq_self_of_imp fun hs =>
          decide_eq_true (suffix_lt_of_nonDot (c :: rest) ".js" (by decide) hd hs)]

theorem build_files_ne_nil {Conf : Type} (ctx : Context) (fs : FS) (R : Renderer Conf)
    (parseJson : String → Except Unit Conf) (emptyConf : Conf) (files : List FPath)
    (hne : files.isEmpty = false) :
    build_files ctx fs R parseJson emptyConf files false =
      match loadConf ctx fs parseJson emptyConf with
      | Except.error e => Except.error e
      | Except.ok conf => files.mapM (buildOne ctx R conf) := by
  unfold build_files
  rw [if_neg]
  · simp
  · simp [hne]

theorem is_html_not_css_js (f : FPath) (h : is_html f = true) : is_css_js f = false := by
  unfold is_html is_ext at h
  unfold is_css_js is_ext
  generalize lowerStr (pathSuffix (pathName f)) = s at h ⊢
  have hm : s ∈ [".html", ".htm", ".jinja"] := by simpa using h
  fin_cases hm <;> decide

theorem mapM_buildOne_ok {Conf : Type} (ctx : Context) (R : Renderer Conf) (conf : Conf) :
    ∀ files : List FPath, (∀ f ∈ files, ctx.input_dir.isPrefixOf f = true) →
      ∃ rs, files.mapM (buildOne ctx R conf) = Except.ok rs ∧
        List.Forall₂ (fun f r => buildOne ctx R conf f = Except.ok r) files rs := by
  intro files
  induction files with
  | nil => exact fun _ => ⟨[], rfl, List.Forall₂.nil⟩
  | cons a l ih =>
    intro h
    obtain ⟨r, hr⟩ := buildOne_ok ctx R conf a (h a (List.mem_cons_self a l))
    obtain ⟨rs, hrs, hall⟩ := ih fun f hf => h f (List.mem_cons_of_mem a hf)
    exact ⟨r :: rs, by rw [List.mapM_cons, hr, hrs]; rfl, List.Forall₂.cons hr hall⟩

theorem buildOne_render_failure {Conf : Type} (ctx : Context) (R : Renderer Conf)
    (conf : Conf) (f : FPath) (hhtml : is_html f = true)
    (hpre : ctx.input_dir.isPrefixOf f = true)
    (herr : R.render (stubString (f.drop ctx.input_dir.length)) conf = Except.error ()) :
    buildOne ctx R conf f = Except.ok (FileResult.errorLogged f) := by
  unfold buildOne Context.stub_of
  simp only [if_pos hpre]
  rw [if_neg, if_pos hhtml, herr]
  rw [is_html_not_css_js f hhtml]
  exact Bool.false_ne_true

theorem buildOne_no_body {Conf : Type} (ctx : Context) (R : Renderer Conf)
    (conf : Conf) (f : FPath) (out : String) (hhtml : is_html f = true)
    (hpre : ctx.input_dir.isPrefixOf f = true) (hdev : ctx.dev_mode = true)
    (hrender : R.render (stubString (f.drop ctx.input_dir.length)) conf = Except.ok out)
    (hbody : R.hasBody out = false) :
    buildOne ctx R conf f = Except.ok (FileResult.warnedMalformed f) := by
  unfold buildOne Context.stub_of
  simp only [if_pos hpre]
  rw [if_neg, if_pos hhtml, hrender]
  · simp [hdev, hbody]
  · rw [is_html_not_css_js f hhtml]
    exact Bool.false_ne_true

theorem mem_insertIfAbsent (l : List FPath) (p q : FPath) :
    (q ∈ if l.contains p then l else l ++ [p]) ↔ (q ∈ l ∨ q = p) := by
  by_cases h : l.contains p
  · rw [if_pos h]
    constructor
    · exact fun hq => Or.inl hq
    · rintro (hq | rfl)
      · exact hq
      · simpa using h
  · rw [if_neg h]
    simp

theorem stepEvents_no_trigger (ctx : Context) (fs : FS) :
    ∀ (batch : List (Change × FPath)) (st : LoopState),
      (∀ e ∈ batch, (ctx.is_template fs e.2 none || ctx.is_config_json e.2) = false) →
      (∀ e ∈ batch, e.1 = Change.deleted → ctx.input_dir.isPrefixOf e.2 = true) →
      ∃ st', stepEvents ctx fs batch st = Except.ok st' ∧
        st'.build_all = st.build_all ∧
        st'.notify_all = (st.notify_all ||
          batch.any fun e =>
            (e.1 = Change.added || e.1 = Change.modified) && is_css_js e.2) ∧
        (∀ q, q ∈ st'.l ↔
          (q ∈ st.l ∨ (Change.added, q) ∈ batch ∨ (Change.modified, q) ∈ batch)) ∧
        (∀ u, u ∈ st.unlinked → u ∈ st'.unlinked) ∧
        (∀ q, (Change.deleted, q) ∈ batch →
          (ctx.output_dir ++ q.drop ctx.input_dir.length) ∈ st'.unlinked) := by
  intro batch
  induction batch with
  | nil =>
    intro st _ _
    exact ⟨st, rfl, rfl, by simp, fun q => by simp, fun u h => h,
      fun q hq => absurd hq (List.not_mem_nil _)⟩
  | cons e rest ih =>
    intro st hnt hdel
    obtain ⟨c, p⟩ := e
    have hnte : (ctx.is_template fs p none || ctx.is_config_json p) = false :=
      hnt (c, p) (List.mem_cons_self _ _)
    have hnt' : ∀ e ∈ rest, (ctx.is_template fs e.2 none || ctx.is_config_json e.2) = false :=
      fun e he => hnt e (List.mem_cons_of_mem _ he)
    have hdel' : ∀ e ∈ rest, e.1 = Change.deleted → ctx.input_dir.isPrefixOf e.2 = true :=
      fun e he => hdel e (List.mem_cons_of_mem _ he)
    cases c with
    | added =>
      obtain ⟨st', hstep, hba, hna, hl, hsub, hunl⟩ := ih
        { st with l := if st.l.contains p then st.l else st.l ++ [p]
                  notify_all := st.notify_all || is_css_js p } hnt' hdel'
      refine ⟨st', ?_, hba, ?_, ?_, hsub, ?_⟩
      · simp only [stepEvents, hnte]
        simpa using hstep
      · rw [hna]
        simp [Bool.or_assoc]
      · intro q
        rw [hl q]
        show (q ∈ if st.l.contains p = true then st.l else st.l ++ [p]) ∨ _ ↔ _
        rw [mem_insertIfAbsent]
        simp only [List.mem_cons, Prod.mk.injEq]
        tauto
      · intro q hq
        rcases List.mem_cons.mp hq with h | h
        · cases h
        · exact hunl q h
    | modified =>
      obtain ⟨st', hstep, hba, hna, hl, hsub, hunl⟩ := ih
        { st with l := if st.l.contains p then st.l else st.l ++ [p]
                  notify_all := st.notify_all || is_css_js p } hnt' hdel'
      refine ⟨st', ?_, hba, ?_, ?_, hsub, ?_⟩
      · simp only [stepEvents, hnte]
        simpa using hstep
      · rw [hna]
        simp [Bool.or_assoc]
      · intro q
        rw [hl q]
        show (q ∈ if st.l.contains p = true then st.l else st.l ++ [p]) ∨ _ ↔ _
        rw [mem_insertIfAbsent]
        simp only [List.mem_cons, Prod.mk.injEq]
        tauto
      · intro q hq
        rcases List.mem_cons.mp hq with h | h
        · cases h
        · exact hunl q h
    | deleted =>
      have hpre : ctx.input_dir.isPrefixOf p = true :=
        hdel (Change.deleted, p) (List.mem_cons_self _ _) rfl
      have hstub : ctx.stub_of p = Except.ok (p.drop ctx.input_dir.length) := by
        unfold Context.stub_of
        rw [if_pos hpre]
      obtain ⟨st', hstep, hba, hna, hl, hsub, hunl⟩ := ih
        { st with unlinked := st.unlinked ++ [ctx.output_dir ++ p.drop ctx.input_dir.length] }
        hnt' hdel'
      refine ⟨st', ?_, hba, ?_, ?_, ?_, ?_⟩
      · simp only [stepEvents, hnte, hstub]
        simpa using hstep
      · rw [hna]
        simp
      · intro q
        rw [hl q]
        simp [List.mem_cons, Prod.mk.injEq]
      · intro u hu
        exact hsub u (by simp [hu])
      · intro q hq
        rcases List.mem_cons.mp hq with h | h
        · rw [Prod.mk.injEq] at h
          obtain ⟨-, rfl⟩ := h
          exact hsub _ (by simp)
        · exact hunl q h

/-! ### The claims -/

/-- C9 (confirmed): for every path under the template directory with extension
`.html`, `.htm` or `.jinja`, `is_template` classifies it as a template for a
Deleted change kind regardless of on-disk existence, while for every other
change kind (including the `None` default) the classification additionally
requires the path to be an existing regular file. -/
theorem C9_template_deletion_skips_existence (ctx : Context) (fs : FS) (p : FPath)
    (c : Option Change) (hUnder : isParentOf ctx.template_dir p = true)
    (hHtml : is_html p = true) :
    ctx.is_template fs p c = true ↔ (c = some Change.deleted ∨ fs.isFile p = true) := by
  unfold Context.is_template
  rw [hUnder, hHtml]
  simp [Bool.or_eq_true, decide_eq_true_iff, or_comm]

theorem C9_witness :
    isParentOf exCtx.template_dir ["i", "templates", "gone.html"] = true ∧
      is_html ["i", "templates", "gone.html"] = true ∧
      exCtx.is_template exFS ["i", "templates", "gone.html"] (some Change.deleted) = true :=
  ⟨by decide, by decide,
    (C9_template_deletion_skips_existence exCtx exFS ["i", "templates", "gone.html"]
      (some Change.deleted) (by decide) (by decide)).mpr (Or.inl rfl)⟩

/-- C10 (confirmed): `stub_of f` succeeds exactly when the input root is a
front of `f`, in which case it returns the relative remainder (joining it back
onto the input root gives `f` again); for any `f` outside the input root it
raises `ValueError`, and consequently `build_files` on a set containing such a
path aborts the whole batch with an uncaught `ValueError` (provided the config
load itself did not raise first). -/
theorem C10_stub_of_domain {Conf : Type} (ctx : Context) (fs : FS) (R : Renderer Conf)
    (parseJson : String → Except Unit Conf) (emptyConf : Conf) (files : List FPath)
    (f : FPath) (hf : f ∈ files) (hbad : ctx.input_dir.isPrefixOf f = false)
    (hconf : ∃ c, loadConf ctx fs parseJson emptyConf = Except.ok c) :
    (∀ g, (∃ s, ctx.stub_of g = Except.ok s ∧ ctx.input_dir ++ s = g) ↔
        ctx.input_dir.isPrefixOf g = true) ∧
      (∀ g, ctx.stub_of g = Except.error () ↔ ctx.input_dir.isPrefixOf g = false) ∧
      (∃ g, ctx.input_dir.isPrefixOf g = false ∧
        build_files ctx fs R parseJson emptyConf files false =
          Except.error (BuildErr.valueError g)) := by
  refine ⟨fun g => stub_of_ok_iff ctx g, fun g => stub_of_error_iff ctx g, ?_⟩
  obtain ⟨c, hc⟩ := hconf
  obtain ⟨g, hg, hmap⟩ := mapM_buildOne_error ctx R c files ⟨f, hf, hbad⟩
  refine ⟨g, hg, ?_⟩
  have hne : files.isEmpty = false := by
    cases files with
    | nil => exact absurd hf (List.not_mem_nil f)
    | cons a l => rfl
  have hred : build_files ctx fs R parseJson emptyConf files false =
      match loadConf ctx fs parseJson emptyConf with
      | Except.error e => Except.error e
      | Except.ok conf => files.mapM (buildOne ctx R conf) := by
    unfold build_files
    rw [if_neg]
    · simp
    · simp [hne]
  rw [hred, hc]
  exact hmap

theorem C10_witness :
    ∃ g, exCtx.input_dir.isPrefixOf g = false ∧
      build_files exCtx exFS exRenderer exParse 0 [["x", "outside.html"]] false =
        Except.error (BuildErr.valueError g) :=
  (C10_stub_of_domain exCtx exFS exRenderer exParse 0 [["x", "outside.html"]]
    ["x", "outside.html"] (by decide) (by decide) ⟨5, rfl⟩).2.2

/-- C7 (confirmed): notifying a path whose stub is `s` produces exactly the
message with command `reload`, path the slash-joined stub and `liveCSS` false,
delivered to every session registered under that stub, and additionally to
every session registered under the empty-string root key when the filename
component of `s` is `index.html`; a session registered only under any other
stub receives nothing. -/
theorem C7_notify_exact_recipients (S : String → List Nat) (ctx : Context) (p : FPath)
    (s : FPath) (hs : ctx.stub_of p = Except.ok s) (hne : s ≠ []) :
    ∃ ds, notifyFile S ctx p = Except.ok ds ∧
      ∀ t m, (t, m) ∈ ds ↔
        (m = reloadMessage (stubString s) ∧
          (t ∈ S (stubString s) ∨ (s.getLastD "" = "index.html" ∧ t ∈ S ""))) := by
  have happ := stub_of_ok_append ctx p s hs
  have hname : pathName p = s.getLastD "" := by
    rw [pathName, ← happ]
    exact getLastD_append_right _ _ hne
  refine ⟨((S (stubString s)).map fun t => (t, reloadMessage (stubString s))) ++
      (if pathName p = "index.html" then
        (S "").map fun t => (t, reloadMessage (stubString s))
      else []), by rw [notifyFile, hs]; rfl, ?_⟩
  intro t m
  rw [hname]
  by_cases hidx : s.getLastD "" = "index.html"
  · rw [if_pos hidx]
    simp only [List.mem_append, List.mem_map, Prod.mk.injEq]
    constructor
    · rintro (⟨x, hx, rfl, rfl⟩ | ⟨x, hx, rfl, rfl⟩)
      · exact ⟨rfl, Or.inl hx⟩
      · exact ⟨rfl, Or.inr ⟨hidx, hx⟩⟩
    · rintro ⟨rfl, hx | ⟨-, hx⟩⟩
      · exact Or.inl ⟨t, hx, rfl, rfl⟩
      · exact Or.inr ⟨t, hx, rfl, rfl⟩
  · rw [if_neg hidx]
    simp only [List.append_nil, List.mem_map, Prod.mk.injEq]
    constructor
    · rintro ⟨x, hx, rfl, rfl⟩
      exact ⟨rfl, Or.inl hx⟩
    · rintro ⟨rfl, hx | ⟨hbad, -⟩⟩
      · exact ⟨t, hx, rfl, rfl⟩
      · exact absurd hbad hidx

theorem C7_witness :
    ∃ ds, notifyFile exSessions exCtx ["i", "foo.html"] = Except.ok ds ∧
      ∀ t m, (t, m) ∈ ds ↔
        (m = reloadMessage (stubString ["foo.html"]) ∧
          (t ∈ exSessions (stubString ["foo.html"]) ∨
            (List.getLastD ["foo.html"] "" = "index.html" ∧ t ∈ exSessions ""))) :=
  C7_notify_exact_recipients exSessions exCtx ["i", "foo.html"] ["foo.html"]
    rfl (by decide)

/-- C3, counterexample: the claimed content-file rule disagrees with the code
at two concrete inputs.  `/i/a.htm` is an existing, non-dot, `.htm`-named file
outside the template directory and outside every ignored directory, so the
claim calls it a content file — but `_FILE_PATTERN` has no `htm` alternative
and rejects it.  `/i/out/x.html` sits inside the ignored output directory, so
the claim rejects it — but `is_content_file` never consults the ignore set and
accepts it. -/
theorem C3_counterexample :
    exCtx.is_content_file exFS3 ["i", "a.htm"] = false ∧
      is_content_file_claimed exCtx exFS3 ["i", "a.htm"] = true ∧
      exCtx.is_content_file exFS3 ["i", "out", "x.html"] = true ∧
      is_content_file_claimed exCtx exFS3 ["i", "out", "x.html"] = false := by
  decide

/-- C3, amended (corrected): `is_content_file p` holds iff `p` is an existing
regular file whose name is non-dot-prefixed and ends in `.html`, `.css` or
`.js` (case-insensitive — `.htm` is not accepted) and `p` is not under the
template directory; membership in an ignored directory is not consulted. -/
theorem C3_content_file_rule (ctx : Context) (fs : FS) (p : FPath) :
    ctx.is_content_file fs p =
      (fs.isFile p && nonDotName (pathName p) &&
        ([".html", ".css", ".js"].any fun e => nameEndsWith (pathName p) e) &&
        !isParentOf ctx.template_dir p) := by
  unfold Context.is_content_file
  rw [filePattern_spec]
  simp [Bool.and_assoc]

/-- C5, counterexample: a `config.json` that exists but holds invalid JSON does
not yield an empty render context — `json.loads` raises before the build loop
and `build_files` aborts with that error instead of proceeding. -/
theorem C5_counterexample :
    exFSBadJson.isFile exCtx.config_json = true ∧
      exParse (exFSBadJson.readText exCtx.config_json) = Except.error () ∧
      build_files exCtx exFSBadJson exRenderer exParse 0 [["i", "content1.html"]] false =
        Except.error BuildErr.jsonError :=
  ⟨rfl, rfl, rfl⟩

/-- C5, amended (corrected): for a non-empty effective file set, the render
context used for every file is the parsed `config.json` object when that file
exists and parses, and the empty mapping when the file does not exist; but a
`config.json` that exists and fails to parse makes `build_files` raise the
JSON error, aborting the whole call, rather than falling back to an empty
mapping. -/
theorem C5_config_context {Conf : Type} (ctx : Context) (fs : FS) (R : Renderer Conf)
    (parseJson : String → Except Unit Conf) (emptyConf : Conf) (files : List FPath)
    (hne : files ≠ []) :
    (∀ c, fs.isFile ctx.config_json = true →
      parseJson (fs.readText ctx.config_json) = Except.ok c →
      build_files ctx fs R parseJson emptyConf files false =
        files.mapM (buildOne ctx R c)) ∧
      (fs.isFile ctx.config_json = false →
        build_files ctx fs R parseJson emptyConf files false =
          files.mapM (buildOne ctx R emptyConf)) ∧
      (fs.isFile ctx.config_json = true →
        parseJson (fs.readText ctx.config_json) = Except.error () →
        build_files ctx fs R parseJson emptyConf files false =
          Except.error BuildErr.jsonError) := by
  have hne' : files.isEmpty = false := by
    cases files with
    | nil => exact absurd rfl hne
    | cons a l => rfl
  rw [build_files_ne_nil ctx fs R parseJson emptyConf files hne']
  unfold loadConf
  refine ⟨fun c hfile hparse => ?_, fun hfile => ?_, fun hfile hparse => ?_⟩
  · rw [hfile, if_pos rfl, hparse]
  · rw [hfile]
    rfl
  · rw [hfile, if_pos rfl, hparse]

theorem C5_witness :
    build_files exCtx exFS exRenderer exParse 0 [["i", "content1.html"]] false =
      [["i", "content1.html"]].mapM (buildOne exCtx exRenderer 5) :=
  (C5_config_context exCtx exFS exRenderer exParse 0 [["i", "content1.html"]]
    (by decide)).1 5 rfl rfl

/-- C4 (confirmed): with every supplied path under the input root and the
config load succeeding, `build_files` always returns normally, with one result
per file, and the result for each file is determined by that file alone (so
one file's failure cannot abort the rest); a render failure on an HTML file
yields only an error log for that file, and in dev mode an HTML file whose
rendered markup has no body tag yields only a warning for that file, its
output left unwritten. -/
theorem C4_per_file_isolation {Conf : Type} (ctx : Context) (fs : FS) (R : Renderer Conf)
    (parseJson : String → Except Unit Conf) (emptyConf : Conf) (conf : Conf)
    (files : List FPath)
    (hin : ∀ f ∈ files, ctx.input_dir.isPrefixOf f = true)
    (hconf : loadConf ctx fs parseJson emptyConf = Except.ok conf) :
    (∃ rs, build_files ctx fs R parseJson emptyConf files false = Except.ok rs ∧
      List.Forall₂ (fun f r => buildOne ctx R conf f = Except.ok r) files rs) ∧
      (∀ f, is_html f = true → ctx.input_dir.isPrefixOf f = true →
        R.render (stubString (f.drop ctx.input_dir.length)) conf = Except.error () →
        buildOne ctx R conf f = Except.ok (FileResult.errorLogged f)) ∧
      (∀ f out, is_html f = true → ctx.input_dir.isPrefixOf f = true →
        ctx.dev_mode = true →
        R.render (stubString (f.drop ctx.input_dir.length)) conf = Except.ok out →
        R.hasBody out = false →
        buildOne ctx R conf f = Except.ok (FileResult.warnedMalformed f)) := by
  refine ⟨?_, fun f h1 h2 h3 => buildOne_render_failure ctx R conf f h1 h2 h3,
    fun f out h1 h2 h3 h4 h5 => buildOne_no_body ctx R conf f out h1 h2 h3 h4 h5⟩
  cases files with
  | nil => exact ⟨[], rfl, List.Forall₂.nil⟩
  | cons a l =>
    obtain ⟨rs, hrs, hall⟩ := mapM_buildOne_ok ctx R conf (a :: l) hin
    refine ⟨rs, ?_, hall⟩
    rw [build_files_ne_nil ctx fs R parseJson emptyConf (a :: l) rfl, hconf]
    exact hrs

theorem C4_witness :
    ∃ rs, build_files exCtxDev exFS exRenderer exParse 0
        [["i", "content1.html"], ["i", "bad.html"], ["i", "frag.html"]] false =
          Except.ok rs ∧
      List.Forall₂ (fun f r => buildOne exCtxDev exRenderer 5 f = Except.ok r)
        [["i", "content1.html"], ["i", "bad.html"], ["i", "frag.html"]] rs :=
  (C4_per_file_isolation exCtxDev exFS exRenderer exParse 0 5
    [["i", "content1.html"], ["i", "bad.html"], ["i", "frag.html"]]
    (by decide) rfl).1

/-- C6 (confirmed): for a batch with no template/config event but at least one
added or modified css/js content file, the handler keeps the build incremental
— the build set is exactly the added/modified paths of the batch, `build_all`
stays off — while `notify_all` is raised, so the notify set is re-widened to
the full recursive discovery of all content files and a reload is fanned out
for every content file, not only the changed ones. -/
theorem C6_css_incremental_build_full_notify (ctx : Context) (fs : FS)
    (batch : List (Change × FPath))
    (hnt : ∀ e ∈ batch, (ctx.is_template fs e.2 none || ctx.is_config_json e.2) = false)
    (hdel : ∀ e ∈ batch, e.1 = Change.deleted → ctx.input_dir.isPrefixOf e.2 = true)
    (hcss : ∃ e ∈ batch, (e.1 = Change.added ∨ e.1 = Change.modified) ∧
      is_css_js e.2 = true ∧ ctx.is_content_file fs e.2 = true) :
    ∃ o, handleBatch ctx fs batch = Except.ok o ∧
      o.buildAll = false ∧ o.notifyAll = true ∧
      (∀ q, q ∈ o.buildSet ↔ ((Change.added, q) ∈ batch ∨ (Change.modified, q) ∈ batch)) ∧
      o.notifySet = find_acceptable_files ctx fs := by
  obtain ⟨st', hstep, hba, hna, hl, -, -⟩ :=
    stepEvents_no_trigger ctx fs batch ⟨[], false, false, []⟩ hnt hdel
  have hba0 : st'.build_all = false := hba
  have hna1 : st'.notify_all = true := by
    rw [hna]
    simp only [Bool.false_or]
    obtain ⟨e, he, hk, hcs, -⟩ := hcss
    refine List.any_eq_true.mpr ⟨e, he, ?_⟩
    rcases hk with hk | hk <;> simp [hk, hcs]
  have hh : handleBatch ctx fs batch = Except.ok
      { buildSet := st'.l
        buildAll := st'.build_all
        notifyAll := st'.notify_all
        unlinked := st'.unlinked
        notifySet := if st'.notify_all && !st'.build_all then find_acceptable_files ctx fs
          else st'.l } := by
    rw [handleBatch, hstep]
    rfl
  refine ⟨_, hh, hba0, hna1, ?_, ?_⟩
  · intro q
    have := hl q
    simpa using this
  · show (if st'.notify_all && !st'.build_all then find_acceptable_files ctx fs else st'.l) = _
    rw [hna1, hba0]
    rfl

theorem C6_witness :
    ∃ o, handleBatch exCtx exFS
        [(Change.modified, ["i", "shared.css"]), (Change.modified, ["i", "content1.html"])] =
          Except.ok o ∧
      o.buildAll = false ∧ o.notifyAll = true ∧
      (∀ q, q ∈ o.buildSet ↔
        ((Change.added, q) ∈
            [(Change.modified, ["i", "shared.css"]),
              (Change.modified, ["i", "content1.html"])] ∨
          (Change.modified, q) ∈
            [(Change.modified, ["i", "shared.css"]),
              (Change.modified, ["i", "content1.html"])])) ∧
      o.notifySet = find_acceptable_files exCtx exFS :=
  C6_css_incremental_build_full_notify exCtx exFS
    [(Change.modified, ["i", "shared.css"]), (Change.modified, ["i", "content1.html"])]
    (by decide) (by decide)
    ⟨(Change.modified, ["i", "shared.css"]), by decide, by decide, by decide, by decide⟩

/-- C2, counterexample: `/i/gone.html` was an existing content file; once it is
deleted, the watch filter returns `False` for its deletion event —
`is_content_file` requires the path to exist, and none of the other three
classifier predicates accepts it — so the deletion of a content file is not
reportable, contrary to the claim. -/
theorem C2_counterexample :
    exCtx.is_content_file exFSBefore ["i", "gone.html"] = true ∧
      jinjaFilter exCtx exFSAfter Change.deleted ["i", "gone.html"] = false := by
  decide

/-- C2, amended (corrected): for every `(Deleted, p)` event that does appear in
a consumed batch (and does not hit the template/config branch first), the
handler unlinks `outputRoot ++ stub_of p`, with `missing_ok=True` so a missing
output file is ignored; the filter is exactly the disjunction of the four
classifier predicates, but a deleted content file — no longer an existing file
or directory, not the config path, not under the template directory — fails
all four, so deletion events for content files are never reported (only
template and config deletions are). -/
theorem C2_deleted_content_unlinked_not_reported (ctx : Context) (fs : FS) (p : FPath)
    (batch : List (Change × FPath)) (ch : Change)
    (hnf : fs.isFile p = false) (hnd : fs.isDir p = false)
    (hnc : ctx.is_config_json p = false) (hnt : isParentOf ctx.template_dir p = false)
    (hbatch : ∀ e ∈ batch, (ctx.is_template fs e.2 none || ctx.is_config_json e.2) = false)
    (hdel : ∀ e ∈ batch, e.1 = Change.deleted → ctx.input_dir.isPrefixOf e.2 = true)
    (hmem : (Change.deleted, p) ∈ batch) :
    jinjaFilter ctx fs ch p = false ∧
      ∃ o, handleBatch ctx fs batch = Except.ok o ∧
        (ctx.output_dir ++ p.drop ctx.input_dir.length) ∈ o.unlinked := by
  constructor
  · unfold jinjaFilter Context.is_content_file Context.is_content_dir Context.is_template
    rw [hnf, hnd, hnc, hnt]
    simp
  · obtain ⟨st', hstep, -, -, -, -, hunl⟩ :=
      stepEvents_no_trigger ctx fs batch ⟨[], false, false, []⟩ hbatch hdel
    exact ⟨_, by rw [handleBatch, hstep]; rfl, hunl p hmem⟩

theorem C2_witness :
    jinjaFilter exCtx exFSAfter Change.deleted ["i", "gone.html"] = false ∧
      ∃ o, handleBatch exCtx exFSAfter [(Change.deleted, ["i", "gone.html"])] =
          Except.ok o ∧
        (exCtx.output_dir ++ (["i", "gone.html"] : FPath).drop exCtx.input_dir.length) ∈
          o.unlinked :=
  C2_deleted_content_unlinked_not_reported exCtx exFSAfter ["i", "gone.html"]
    [(Change.deleted, ["i", "gone.html"])] Change.deleted
    (by decide) (by decide) (by decide) (by decide) (by decide) (by decide) (by decide)

/-- C1 (code bug, failing input): a Deleted event for the template
`/i/templates/base.html` (already gone from disk) is reportable by the filter
— which passes the change kind to `is_template` — yet the handler calls
`is_template(p)` with no change kind, classifies the deleted template as
nothing, takes the deletion branch (unlinking an output path that never
existed) and performs no full rebuild and no notify: the batch outcome has an
empty build set and empty notify set even though the full discovery is
non-empty.  A deleted `config.json`, by contrast, does trigger the full
rebuild, exhibiting the asymmetry. -/
theorem C1_deleted_template_skips_full_rebuild :
    jinjaFilter exCtx exFS1 Change.deleted ["i", "templates", "base.html"] = true ∧
      exCtx.is_template exFS1 ["i", "templates", "base.html"] none = false ∧
      find_acceptable_files exCtx exFS1 = [["i", "a.html"]] ∧
      handleBatch exCtx exFS1 [(Change.deleted, ["i", "templates", "base.html"])] =
        Except.ok
          { buildSet := [], buildAll := false, notifyAll := false,
            unlinked := [["i", "out", "templates", "base.html"]], notifySet := [] } ∧
      handleBatch exCtx exFS1 [(Change.deleted, ["i", "config.json"])] =
        Except.ok
          { buildSet := [["i", "a.html"]], buildAll := true, notifyAll := false,
            unlinked := [], notifySet := [["i", "a.html"]] } := by
  decide

/-- C8 (code bug, failing input): a client that completed its handshake with a
root url (url path stripping to the empty string) is registered under the
empty-string key, but on disconnect the truthiness guard on the popped url
path skips the removal, leaving the closed session in the root stub set; a
session registered under a non-empty stub is removed correctly, and
disconnecting a session that never completed (or never started) its handshake
leaves the session registry unchanged without error. -/
theorem C8_root_key_session_leak :
    (on_receive (fun _ => "") ((⟨[], []⟩ : Hub)) 7 "hello" none) =
        ⟨[(7, none)], []⟩ ∧
      (on_receive (fun _ => "")
          (on_receive (fun _ => "") (⟨[], []⟩ : Hub) 7 "hello" none) 7 "info"
          (some "http://localhost:8000/")) = ⟨[(7, some "")], [("", [7])]⟩ ∧
      on_disconnect (⟨[(7, some "")], [("", [7])]⟩ : Hub) 7 = ⟨[], [("", [7])]⟩ ∧
      (on_disconnect (⟨[(7, some "")], [("", [7])]⟩ : Hub) 7).sessionsOf "" = [7] ∧
      on_disconnect (⟨[(8, some "foo.html")], [("foo.html", [8])]⟩ : Hub) 8 =
        ⟨[], [("foo.html", [])]⟩ ∧
      on_disconnect (⟨[(9, none)], []⟩ : Hub) 9 = ⟨[], []⟩ ∧
      on_disconnect (⟨[], []⟩ : Hub) 9 = ⟨[], []⟩ := by
  decide

end J2H
